import Mathlib

/-!
# Verification of the tower-grpc-web adapter (src/tower-grpc-web/src/lib.rs)

Shallow embedding of the gRPC / gRPC-Web translation layer.  HTTP requests
and responses are modelled as records over an abstract body type; header
values are modelled as character sequences (the `http` crate stores header
names lowercased, so names are plain lowercase strings here).  The fallible
operations of the source (`HeaderValue::to_str().unwrap()`,
`HeaderValue::from_str(..).unwrap()`) are modelled with `Option`, `none`
standing for a panic.

Functions that exist in the source only as `unimplemented!` stubs (the frame
codec, the client-side response translation, the grpc-to-web inverse rewrite)
are modelled from the specification; each such definition says so in its doc
comment.
-/

namespace TowerGrpcWeb

/-- HTTP method, mirroring `http::Method` (the variants used by this crate). -/
inductive Method : Type
  | GET
  | POST
  | OPTIONS
  | PUT
  | DELETE
  | HEAD
  | PATCH
  deriving DecidableEq, Repr

/-- HTTP version, mirroring `http::version::Version`. -/
inductive Version : Type
  | HTTP09
  | HTTP10
  | HTTP11
  | HTTP2
  | HTTP3
  deriving DecidableEq, Repr

/-- A header value, modelled as its character sequence. -/
abbrev HeaderValue : Type := List Char

/-- A header map, modelled as an insertion-ordered list of
lowercase-name/value pairs (the `http` crate's `HeaderMap` is a
multimap whose keys are stored lowercased). -/
abbrev Headers : Type := List (String × HeaderValue)

/-- An `http::Request` over an abstract body type. -/
structure Request (B : Type) : Type where
  method : Method
  uri : String
  version : Version
  headers : Headers
  body : B

/-- An `http::Response` over an abstract body type. -/
structure Response (B : Type) : Type where
  status : Nat
  headers : Headers
  body : B

/-- First value stored for a header name, mirroring `HeaderMap::get`. -/
def getFirst (k : String) : Headers → Option HeaderValue
  | [] => none
  | (n, v) :: t => if n = k then some v else getFirst k t

/-- All values stored for a header name, in order, mirroring
`HeaderMap::get_all`. -/
def getAll (k : String) : Headers → List HeaderValue
  | [] => []
  | (n, v) :: t => if n = k then v :: getAll k t else getAll k t

/-- Drop every entry for a header name. -/
def removeKey (k : String) : Headers → Headers
  | [] => []
  | (n, v) :: t => if n = k then removeKey k t else (n, v) :: removeKey k t

/-- Replace the value of a key with a single value: the first entry for the
key keeps its position and gets the new value, every later entry for the key
is removed.  This mirrors `http::header::OccupiedEntry::insert`, which sets
the entry's value and removes all previous values for the key. -/
def replaceKeyAll (k : String) (nv : HeaderValue) : Headers → Headers
  | [] => []
  | (n, v) :: t => if n = k then (n, nv) :: removeKey k t else (n, v) :: replaceKeyAll k nv t

/-- Whether a character is visible ASCII (or horizontal tab), the condition
under which `http::HeaderValue::to_str` succeeds. -/
def isVisibleAscii (c : Char) : Bool :=
  (decide (32 ≤ c.toNat) && decide (c.toNat < 127)) || decide (c.toNat = 9)

/-- Whether a character is acceptable to `http::HeaderValue::from_str`
(every byte of its UTF-8 encoding is at least 32 and not 127, or tab). -/
def validHeaderChar (c : Char) : Bool :=
  (decide (32 ≤ c.toNat) && decide (c.toNat ≠ 127)) || decide (c.toNat = 9)

/-- `HeaderValue::to_str`: succeeds (returning the characters unchanged)
exactly when every character is visible ASCII. -/
def toStr (v : HeaderValue) : Option (List Char) :=
  if v.all isVisibleAscii then some v else none

/-- `HeaderValue::from_str`: succeeds exactly when every character is a
valid header-value character. -/
def fromStr (s : List Char) : Option HeaderValue :=
  if s.all validHeaderChar then some s else none

/-- Fuel-indexed left-to-right non-overlapping substring replacement, the
semantics of Rust's `str::replace`.  Fuel at least the length of the input
makes the fuel irrelevant (each step consumes at least one character for the
nonempty patterns used here). -/
def replaceFuel (pat repl : List Char) : Nat → List Char → List Char
  | _, [] => []
  | 0, l => l
  | fuel + 1, x :: rest =>
    if pat.isPrefixOf (x :: rest) then
      repl ++ replaceFuel pat repl fuel (List.drop pat.length (x :: rest))
    else
      x :: replaceFuel pat repl fuel rest

/-- `str::replace`: replace every non-overlapping occurrence of `pat` by
`repl`, scanning left to right. -/
def replaceStr (pat repl s : List Char) : List Char :=
  replaceFuel pat repl s.length s

/-- The content-type rewrite performed by `request_from_web_to_grpc`:
`value.replace("application/grpc-web", "application/grpc")`. -/
def ctWebToGrpc (s : List Char) : List Char :=
  replaceStr ("application/grpc-web".data) ("application/grpc".data) s

/-- Modelled from the spec: the inverse content-type rewrite of the
ClientOutbound direction (§4.2).  The source's `request_from_grpc_to_web`
is an `unimplemented!` stub, so only its specified behaviour — the inverse
rewrite `application/grpc` back to `application/grpc-web` — is modelled. -/
def ctGrpcToWeb (s : List Char) : List Char :=
  replaceStr ("application/grpc".data) ("application/grpc-web".data) s

/-- The server options record (`struct Options` in the source). -/
structure Options : Type where
  allowed_request_headers : Option (List String)
  cors_for_registered_endpoints_only : Bool
  origin_filter : Option (String → Bool)

/-- `ServerBuilder`, a wrapper around `Options`. -/
structure ServerBuilder : Type where
  options : Options

/-- `ServerBuilder::new`: the default options. -/
def ServerBuilder.new : ServerBuilder :=
  ⟨{ allowed_request_headers := none
     cors_for_registered_endpoints_only := true
     origin_filter := none }⟩

/-- `ServerBuilder::origin_filter`. -/
def ServerBuilder.origin_filter (b : ServerBuilder) (f : String → Bool) : ServerBuilder :=
  ⟨{ b.options with origin_filter := some f }⟩

/-- `ServerBuilder::cors_for_registered_endpoints_only`. -/
def ServerBuilder.cors_for_registered_endpoints_only (b : ServerBuilder) (value : Bool) :
    ServerBuilder :=
  ⟨{ b.options with cors_for_registered_endpoints_only := value }⟩

/-- `ServerBuilder::allowed_request_headers`. -/
def ServerBuilder.allowed_request_headers (b : ServerBuilder) (value : List String) :
    ServerBuilder :=
  ⟨{ b.options with allowed_request_headers := some value }⟩

/-- `Server`, wrapping the inner service together with the options. -/
structure Server (S : Type) : Type where
  service : S
  options : Options

/-- `ServerBuilder::build`. -/
def ServerBuilder.build {S : Type} (b : ServerBuilder) (service : S) : Server S :=
  ⟨service, b.options⟩

/-- `Server::new`: build with the default options. -/
def Server.new {S : Type} (service : S) : Server S :=
  ServerBuilder.new.build service

/-- `Client`, wrapping the inner transport service. -/
structure Client (S : Type) : Type where
  service : S

/-- The two variants of a server future (`enum InnerServerFuture`). -/
inductive InnerServerFuture (F : Type) : Type
  | GrpcWeb (f : F)
  | Grpc (f : F)

/-- `ServerFuture`, a wrapper around `InnerServerFuture`. -/
structure ServerFuture (F : Type) : Type where
  inner : InnerServerFuture F

/-- `futures::Poll` (which is `Result<Async<T>, E>`). -/
inductive Poll (T : Type) (E : Type) : Type
  | ready (t : T)
  | notReady
  | error (e : E)

/-- `is_grpc_web_request`: true iff the method is POST and the content-type
header is present, decodes to a string, and starts with
`application/grpc-web`. -/
def is_grpc_web_request {B : Type} (req : Request B) : Bool :=
  decide (req.method = Method.POST) &&
    (match getFirst "content-type" req.headers with
     | some v =>
       (match toStr v with
        | some s => List.isPrefixOf ("application/grpc-web".data) s
        | none => false)
     | none => false)

/-- `request_from_web_to_grpc`: set the HTTP version to HTTP/2 and rewrite
the content-type header (occupied entry: replace `application/grpc-web` by
`application/grpc` in its first value, dropping any extra values; vacant
entry: insert `application/grpc`).  `none` models a panic of one of the two
`unwrap`s in the source. -/
def request_from_web_to_grpc {B : Type} (req : Request B) : Option (Request B) :=
  match getFirst "content-type" req.headers with
  | some v =>
    (match toStr v with
     | some s =>
       (match fromStr (ctWebToGrpc s) with
        | some nv =>
          some { req with version := Version.HTTP2
                          headers := replaceKeyAll "content-type" nv req.headers }
        | none => none)
     | none => none)
  | none =>
    some { req with version := Version.HTTP2
                    headers := req.headers ++ [("content-type", "application/grpc".data)] }

/-- Modelled from the spec: `response_from_grpc_to_web` in the source has an
empty body (a stub); §4.2 specifies the inverse content-type rewrite on the
response headers.  No claim depends on this definition's details; it only
fills the gRPC-Web branch of `ServerFuture.poll`. -/
def response_from_grpc_to_web {B : Type} (resp : Response B) : Response B :=
  match getFirst "content-type" resp.headers with
  | some v => { resp with headers := replaceKeyAll "content-type" (ctGrpcToWeb v) resp.headers }
  | none => resp

/-- `Server::poll_ready`: delegate to the inner service. -/
def Server.poll_ready {S E : Type} (s : Server S) (pollInner : S → Poll Unit E) : Poll Unit E :=
  pollInner s.service

/-- `Client::poll_ready`: delegate to the inner service. -/
def Client.poll_ready {S E : Type} (c : Client S) (pollInner : S → Poll Unit E) : Poll Unit E :=
  pollInner c.service

/-- `Server::call`: classify the request; a gRPC-Web request is translated
and dispatched as the `GrpcWeb` future variant, anything else is dispatched
untouched as the `Grpc` variant.  The inner service's `call` is abstracted
as a function from the service and the request to its future. -/
def Server.call {S B F : Type} (s : Server S) (innerCall : S → Request B → F)
    (req : Request B) : Option (ServerFuture F) :=
  if is_grpc_web_request req then
    (request_from_web_to_grpc req).map (fun r => ⟨InnerServerFuture.GrpcWeb (innerCall s.service r)⟩)
  else
    some ⟨InnerServerFuture.Grpc (innerCall s.service req)⟩

/-- `ServerFuture::poll`: the `GrpcWeb` variant converts a ready response
through `response_from_grpc_to_web`, everything else (including the whole
`Grpc` variant) is forwarded as-is. -/
def ServerFuture.poll {F B E : Type} (fut : ServerFuture F)
    (pollInner : F → Poll (Response B) E) : Poll (Response B) E :=
  match fut.inner with
  | InnerServerFuture.GrpcWeb f =>
    (match pollInner f with
     | Poll.ready r => Poll.ready (response_from_grpc_to_web r)
     | Poll.notReady => Poll.notReady
     | Poll.error e => Poll.error e)
  | InnerServerFuture.Grpc f => pollInner f

/-! ## Frame codec (modelled from the spec)

The source contains no frame codec at all (§9 of the spec: the codec is
exactly what the `unimplemented!` stubs leave out), so the definitions below
are modelled from the spec, §4.1 and §6: a frame is `[flag:1][length:4 BE]
[payload:length]`, flag `0x00` for a Message frame, `0x80` for a Trailer
frame; a Trailer frame's payload is a text block of `name: value\r\n`
pairs.  Bytes are modelled as natural numbers. -/

/-- A decoded transport frame. -/
inductive Frame : Type
  | message (payload : List Nat)
  | trailer (payload : List Nat)
  deriving DecidableEq, Repr

/-- Result of the streaming decoder: a complete frame together with the
unconsumed remainder of the buffer, or a request for more input, or an
error. -/
inductive DecodeResult : Type
  | frame (f : Frame) (rest : List Nat)
  | needMoreData
  | framingError
  | messageTooLarge
  deriving DecidableEq, Repr

/-- 4-byte big-endian encoding of a length. -/
def toBE4 (n : Nat) : List Nat :=
  [n / 16777216 % 256, n / 65536 % 256, n / 256 % 256, n % 256]

/-- Reassemble a 4-byte big-endian length. -/
def fromBE4 (a b c d : Nat) : Nat :=
  ((a * 256 + b) * 256 + c) * 256 + d

/-- Modelled from the spec: `encode_message` prefixes a `0x00` flag byte and
a 4-byte big-endian length to the payload (§4.1). -/
def encode_message (payload : List Nat) : List Nat :=
  0 :: (toBE4 payload.length ++ payload)

/-- The ASCII bytes of a string (trailer names and values are ASCII). -/
def strBytes (s : String) : List Nat :=
  s.data.map Char.toNat

/-- Modelled from the spec: serialization of a trailer set into the
headers-style text block `name: value\r\n` (58 is the colon, 32 the space,
13 10 the CRLF). -/
def encodeTrailerBlock : List (List Nat × List Nat) → List Nat
  | [] => []
  | (n, v) :: t => n ++ (58 :: 32 :: (v ++ (13 :: 10 :: encodeTrailerBlock t)))

/-- Modelled from the spec: `encode_trailer` serializes the trailer set to a
text block and prefixes a `0x80` flag byte and length (§4.1). -/
def encode_trailer (t : List (List Nat × List Nat)) : List Nat :=
  128 :: (toBE4 (encodeTrailerBlock t).length ++ encodeTrailerBlock t)

/-- Modelled from the spec: the streaming decoder `decode_next_frame`
(§4.1): with at least 5 bytes and the declared length fully present it
returns a complete frame and the unconsumed rest; a flag with reserved bits
set is a `FramingError`; a declared length above the configured maximum is
`MessageTooLarge`; otherwise it signals the need for more input. -/
def decode_next_frame (maxSize : Nat) (buf : List Nat) : DecodeResult :=
  match buf with
  | flag :: a :: b :: c :: d :: rest =>
    if flag = 0 ∨ flag = 128 then
      if maxSize < fromBE4 a b c d then DecodeResult.messageTooLarge
      else if rest.length < fromBE4 a b c d then DecodeResult.needMoreData
      else if flag = 0 then
        DecodeResult.frame (Frame.message (rest.take (fromBE4 a b c d)))
          (rest.drop (fromBE4 a b c d))
      else
        DecodeResult.frame (Frame.trailer (rest.take (fromBE4 a b c d)))
          (rest.drop (fromBE4 a b c d))
    else DecodeResult.framingError
  | _ => DecodeResult.needMoreData

/-- Read bytes up to (and consuming) the first occurrence of `stop`;
`none` if `stop` never occurs. -/
def readUntil (stop : Nat) : List Nat → Option (List Nat × List Nat)
  | [] => none
  | b :: rest =>
    if b = stop then some ([], rest)
    else
      match readUntil stop rest with
      | some (pre, post) => some (b :: pre, post)
      | none => none

/-- Fuel-indexed parser for the trailer text block: repeatedly read
`name: value\r\n`.  Fuel at least the input length makes the fuel
irrelevant (each pair consumes at least four bytes). -/
def decodeTrailerGo : Nat → List Nat → Option (List (List Nat × List Nat))
  | fuel, bytes =>
    if bytes.isEmpty then some []
    else
      match fuel with
      | 0 => none
      | f + 1 =>
        match readUntil 58 bytes with
        | none => none
        | some (name, rest1) =>
          match rest1 with
          | 32 :: rest2 =>
            (match readUntil 13 rest2 with
             | none => none
             | some (value, rest3) =>
               match rest3 with
               | 10 :: rest4 => Option.map (fun t => (name, value) :: t) (decodeTrailerGo f rest4)
               | _ => none)
          | _ => none

/-- Modelled from the spec: `decode_trailer` parses a trailer text block
back into the trailer set (§4.1, §8). -/
def decode_trailer (bytes : List Nat) : Option (List (List Nat × List Nat)) :=
  decodeTrailerGo bytes.length bytes

/-- Modelled from the spec: the error taxonomy of §7 relevant to the client
adapter. -/
inductive GrpcWebError : Type
  | missingTrailer
  | framingError
  | messageTooLarge
  deriving DecidableEq, Repr

/-- Fuel-indexed decoding of a complete client-side response body: message
frames accumulate, the first Trailer frame ends the call successfully, and
exhausting the bytes (the stream has ended; `needMoreData` with nothing
more to come) without a Trailer frame is a `MissingTrailerError`.  Fuel
above the input length makes the fuel irrelevant (each frame consumes at
least five bytes). -/
def decodeBodyGo (maxSize : Nat) : Nat → List Nat → List (List Nat) →
    Except GrpcWebError (List (List Nat) × List Nat)
  | 0, _, _ => Except.error GrpcWebError.missingTrailer
  | fuel + 1, buf, acc =>
    match decode_next_frame maxSize buf with
    | DecodeResult.frame (Frame.message p) rest => decodeBodyGo maxSize fuel rest (p :: acc)
    | DecodeResult.frame (Frame.trailer p) _ => Except.ok (acc.reverse, p)
    | DecodeResult.needMoreData => Except.error GrpcWebError.missingTrailer
    | DecodeResult.framingError => Except.error GrpcWebError.framingError
    | DecodeResult.messageTooLarge => Except.error GrpcWebError.messageTooLarge

/-- Modelled from the spec: the client-side response translation
(`response_from_web_to_grpc` is `unimplemented!` in the source).  §4.5:
decode the complete response byte stream, splitting it into the message
payloads and the trailing Trailer frame's payload; if the stream ends
without ever producing a Trailer frame the result is `MissingTrailerError`
(and the call is failed with status "unknown"), never a success. -/
def response_from_web_to_grpc (maxSize : Nat) (body : List Nat) :
    Except GrpcWebError (List (List Nat) × List Nat) :=
  decodeBodyGo maxSize (body.length + 1) body []

/-! ## Concrete requests used by the witnesses -/

/-- A plain health-check request: `GET /health`, no particular headers. -/
def healthRequest : Request Unit :=
  { method := Method.GET, uri := "/health", version := Version.HTTP11
    headers := [], body := () }

/-- A CORS pre-flight request: `OPTIONS /pkg.Svc/Method` with `Origin` and
`Access-Control-Request-Method` headers. -/
def preflightRequest : Request Unit :=
  { method := Method.OPTIONS, uri := "/pkg.Svc/Method", version := Version.HTTP11
    headers := [("origin", "https://example.com".data),
                ("access-control-request-method", "POST".data)]
    body := () }

/-- A gRPC-Web request with the `+proto` codec suffix and one extra header. -/
def webProtoRequest : Request Unit :=
  { method := Method.POST, uri := "/pkg.Svc/Method", version := Version.HTTP11
    headers := [("content-type", ("application/grpc-web" ++ "+proto").data),
                ("x-grpc-web", "1".data)]
    body := () }

/-- A non-POST request that nevertheless carries a gRPC-Web content-type and
the `x-grpc-web` marker header. -/
def getWithWebHeaders : Request Unit :=
  { method := Method.GET, uri := "/pkg.Svc/Method", version := Version.HTTP11
    headers := [("content-type", "application/grpc-web".data),
                ("x-grpc-web", "1".data)]
    body := () }

/-! ## Helper lemmas about the header map -/

theorem getFirst_replaceKeyAll (k : String) (nv : HeaderValue) (hs : Headers) (v : HeaderValue)
    (h : getFirst k hs = some v) : getFirst k (replaceKeyAll k nv hs) = some nv := by
  induction hs with
  | nil => simp [getFirst] at h
  | cons p t ih =>
    obtain ⟨n, w⟩ := p
    by_cases hn : n = k
    · simp [replaceKeyAll, getFirst, hn]
    · simp only [getFirst, if_neg hn] at h
      simp only [replaceKeyAll, if_neg hn, getFirst]
      exact ih h

theorem getAll_removeKey (k q : String) (h : q ≠ k) (t : Headers) :
    getAll q (removeKey k t) = getAll q t := by
  induction t with
  | nil => rfl
  | cons p t ih =>
    obtain ⟨n, w⟩ := p
    by_cases hn : n = k
    · have hq : ¬ n = q := by rw [hn]; exact fun he => h he.symm
      simp only [removeKey, if_pos hn, getAll, if_neg hq]
      exact ih
    · simp only [removeKey, if_neg hn, getAll]
      by_cases hq : n = q
      · rw [if_pos hq, if_pos hq, ih]
      · rw [if_neg hq, if_neg hq]
        exact ih

theorem getAll_replaceKeyAll (k q : String) (nv : HeaderValue) (h : q ≠ k) (hs : Headers) :
    getAll q (replaceKeyAll k nv hs) = getAll q hs := by
  induction hs with
  | nil => rfl
  | cons p t ih =>
    obtain ⟨n, w⟩ := p
    by_cases hn : n = k
    · have hq : ¬ n = q := by rw [hn]; exact fun he => h he.symm
      simp only [replaceKeyAll, if_pos hn, getAll, if_neg hq]
      exact getAll_removeKey k q h t
    · simp only [replaceKeyAll, if_neg hn, getAll]
      by_cases hq : n = q
      · rw [if_pos hq, if_pos hq, ih]
      · rw [if_neg hq, if_neg hq]
        exact ih

theorem getFirst_append_missing (k : String) (v : HeaderValue) (hs : Headers)
    (h : getFirst k hs = none) : getFirst k (hs ++ [(k, v)]) = some v := by
  induction hs with
  | nil => simp [getFirst]
  | cons p t ih =>
    obtain ⟨n, w⟩ := p
    by_cases hn : n = k
    · simp [getFirst, hn] at h
    · simp only [List.cons_append, getFirst, if_neg hn] at h ⊢
      exact ih h

/-! ## Helper lemmas about the content-type rewrite -/

theorem replaceFuel_zero (pat repl : List Char) (l : List Char) :
    replaceFuel pat repl 0 l = l := by
  cases l <;> rfl

theorem mem_replaceFuel (pat repl : List Char) :
    ∀ (fuel : Nat) (l : List Char) (c : Char),
      c ∈ replaceFuel pat repl fuel l → c ∈ l ∨ c ∈ repl := by
  intro fuel
  induction fuel with
  | zero =>
    intro l c hc
    rw [replaceFuel_zero] at hc
    exact Or.inl hc
  | succ f ih =>
    intro l c hc
    cases l with
    | nil => simp [replaceFuel] at hc
    | cons x rest =>
      rw [replaceFuel] at hc
      by_cases hp : pat.isPrefixOf (x :: rest)
      · rw [if_pos hp] at hc
        rcases List.mem_append.mp hc with h1 | h2
        · exact Or.inr h1
        · rcases ih _ c h2 with h3 | h4
          · exact Or.inl (List.drop_subset _ _ h3)
          · exact Or.inr h4
      · rw [if_neg hp] at hc
        rcases List.mem_cons.mp hc with h1 | h2
        · exact Or.inl (by rw [h1]; exact List.mem_cons_self x rest)
        · rcases ih rest c h2 with h3 | h4
          · exact Or.inl (List.mem_cons_of_mem x h3)
          · exact Or.inr h4

theorem vis_valid (c : Char) (h : isVisibleAscii c = true) : validHeaderChar c = true := by
  simp only [isVisibleAscii, validHeaderChar, Bool.or_eq_true, Bool.and_eq_true,
    decide_eq_true_eq] at h ⊢
  omega

theorem toStr_eq_some (v : HeaderValue) (s : List Char) (h : toStr v = some s) :
    s = v ∧ v.all isVisibleAscii = true := by
  unfold toStr at h
  split at h
  · exact ⟨(Option.some.inj h).symm, by assumption⟩
  · cases h

theorem fromStr_of_all (s : List Char) (h : s.all validHeaderChar = true) :
    fromStr s = some s := by
  unfold fromStr
  rw [if_pos h]

theorem ctWebToGrpc_valid (v : HeaderValue) (hv : v.all isVisibleAscii = true) :
    (ctWebToGrpc v).all validHeaderChar = true := by
  rw [List.all_eq_true] at hv ⊢
  intro c hc
  simp only [ctWebToGrpc, replaceStr] at hc
  rcases mem_replaceFuel _ _ _ _ c hc with h1 | h2
  · exact vis_valid c (hv c h1)
  · have hall : ("application/grpc".data).all validHeaderChar = true := by decide
    exact List.all_eq_true.mp hall c h2

theorem request_from_web_to_grpc_occupied {B : Type} (req : Request B) (v : HeaderValue)
    (hct : getFirst "content-type" req.headers = some v)
    (hv : v.all isVisibleAscii = true) :
    request_from_web_to_grpc req =
      some { req with version := Version.HTTP2
                      headers := replaceKeyAll "content-type" (ctWebToGrpc v) req.headers } := by
  have h1 : toStr v = some v := by unfold toStr; rw [if_pos hv]
  have h2 : fromStr (ctWebToGrpc v) = some (ctWebToGrpc v) :=
    fromStr_of_all _ (ctWebToGrpc_valid v hv)
  unfold request_from_web_to_grpc
  simp only [hct, h1, h2]

theorem request_from_web_to_grpc_vacant {B : Type} (req : Request B)
    (hct : getFirst "content-type" req.headers = none) :
    request_from_web_to_grpc req =
      some { req with version := Version.HTTP2
                      headers := req.headers ++ [("content-type", "application/grpc".data)] } := by
  unfold request_from_web_to_grpc
  simp only [hct]

theorem is_grpc_web_request_true_elim {B : Type} (req : Request B)
    (h : is_grpc_web_request req = true) :
    req.method = Method.POST ∧
    ∃ v, getFirst "content-type" req.headers = some v ∧ v.all isVisibleAscii = true ∧
      List.isPrefixOf ("application/grpc-web".data) v = true := by
  have h1 : req.method = Method.POST := by
    by_contra hm
    unfold is_grpc_web_request at h
    rw [decide_eq_false hm] at h
    simp at h
  cases hg : getFirst "content-type" req.headers with
  | none =>
    exfalso
    unfold is_grpc_web_request at h
    simp only [hg] at h
    simp at h
  | some v =>
    cases ht : toStr v with
    | none =>
      exfalso
      unfold is_grpc_web_request at h
      simp only [hg, ht] at h
      simp at h
    | some s =>
      obtain ⟨hsv, hall⟩ := toStr_eq_some v s ht
      have hpre : List.isPrefixOf ("application/grpc-web".data) v = true := by
        unfold is_grpc_web_request at h
        simp only [hg, ht, Bool.and_eq_true] at h
        exact hsv ▸ h.2
      exact ⟨h1, ⟨v, by simp [hg], hall, hpre⟩⟩

/-! ## Helper lemmas about the frame codec -/

theorem encode_message_len (p : List Nat) : (encode_message p).length = p.length + 5 := by
  simp only [encode_message, toBE4, List.length_cons, List.length_append, List.length_nil]
  omega

theorem decode_encode_message (maxSize : Nat) (p rest : List Nat)
    (h32 : p.length < 2 ^ 32) (hmax : p.length ≤ maxSize) :
    decode_next_frame maxSize (encode_message p ++ rest) =
      DecodeResult.frame (Frame.message p) rest := by
  have hlen : fromBE4 (p.length / 16777216 % 256) (p.length / 65536 % 256)
      (p.length / 256 % 256) (p.length % 256) = p.length := by
    unfold fromBE4; omega
  have hshape : encode_message p ++ rest =
      0 :: p.length / 16777216 % 256 :: p.length / 65536 % 256 :: p.length / 256 % 256 ::
        p.length % 256 :: (p ++ rest) := by
    simp [encode_message, toBE4]
  rw [hshape]
  have c2 : ¬ maxSize < p.length := by omega
  have c3 : ¬ (p ++ rest).length < p.length := by
    rw [List.length_append]; omega
  simp only [decode_next_frame, hlen]
  simp [c2, c3, List.take_left, List.drop_left]

theorem decode_encode_trailer (maxSize : Nat) (t : List (List Nat × List Nat)) (rest : List Nat)
    (h32 : (encodeTrailerBlock t).length < 2 ^ 32)
    (hmax : (encodeTrailerBlock t).length ≤ maxSize) :
    decode_next_frame maxSize (encode_trailer t ++ rest) =
      DecodeResult.frame (Frame.trailer (encodeTrailerBlock t)) rest := by
  have hlen : fromBE4 ((encodeTrailerBlock t).length / 16777216 % 256)
      ((encodeTrailerBlock t).length / 65536 % 256)
      ((encodeTrailerBlock t).length / 256 % 256)
      ((encodeTrailerBlock t).length % 256) = (encodeTrailerBlock t).length := by
    unfold fromBE4; omega
  have hshape : encode_trailer t ++ rest =
      128 :: (encodeTrailerBlock t).length / 16777216 % 256 ::
        (encodeTrailerBlock t).length / 65536 % 256 ::
        (encodeTrailerBlock t).length / 256 % 256 ::
        (encodeTrailerBlock t).length % 256 :: (encodeTrailerBlock t ++ rest) := by
    simp [encode_trailer, toBE4]
  rw [hshape]
  have c2 : ¬ maxSize < (encodeTrailerBlock t).length := by omega
  have c3 : ¬ (encodeTrailerBlock t ++ rest).length < (encodeTrailerBlock t).length := by
    rw [List.length_append]; omega
  have c4 : ¬ (128 : Nat) = 0 := by decide
  simp only [decode_next_frame, hlen]
  simp [c2, c3, c4, List.take_left, List.drop_left]

theorem readUntil_eq (stop : Nat) (xs rest : List Nat) (h : ¬ stop ∈ xs) :
    readUntil stop (xs ++ stop :: rest) = some (xs, rest) := by
  induction xs with
  | nil => simp [readUntil]
  | cons x t ih =>
    have hx : ¬ x = stop := fun he => h (by rw [he]; exact List.mem_cons_self _ _)
    have ht : ¬ stop ∈ t := fun hm => h (List.mem_cons_of_mem _ hm)
    rw [List.cons_append, readUntil, if_neg hx]
    simp [ih ht]

theorem encodeTrailerBlock_len (n v : List Nat) (t : List (List Nat × List Nat)) :
    (encodeTrailerBlock ((n, v) :: t)).length =
      n.length + v.length + 4 + (encodeTrailerBlock t).length := by
  simp only [encodeTrailerBlock, List.length_append, List.length_cons]
  omega

theorem decodeTrailerGo_block :
    ∀ (t : List (List Nat × List Nat)) (fuel : Nat),
      (∀ p ∈ t, ¬ (58 : Nat) ∈ p.1 ∧ ¬ (13 : Nat) ∈ p.2) →
      (encodeTrailerBlock t).length ≤ fuel →
      decodeTrailerGo fuel (encodeTrailerBlock t) = some t := by
  intro t
  induction t with
  | nil =>
    intro fuel _ _
    cases fuel <;> rfl
  | cons p t ih =>
    obtain ⟨n, v⟩ := p
    intro fuel hwf hfuel
    have hn : ¬ (58 : Nat) ∈ n := (hwf (n, v) (List.mem_cons_self _ _)).1
    have hv : ¬ (13 : Nat) ∈ v := (hwf (n, v) (List.mem_cons_self _ _)).2
    have hlen := encodeTrailerBlock_len n v t
    have hshape : encodeTrailerBlock ((n, v) :: t) =
        n ++ (58 :: 32 :: (v ++ (13 :: 10 :: encodeTrailerBlock t))) := rfl
    cases fuel with
    | zero => exact absurd hfuel (by omega)
    | succ f =>
      have hwf' : ∀ q ∈ t, ¬ (58 : Nat) ∈ q.1 ∧ ¬ (13 : Nat) ∈ q.2 :=
        fun q hq => hwf q (List.mem_cons_of_mem _ hq)
      have hfuel' : (encodeTrailerBlock t).length ≤ f := by omega
      have hne : (n ++ (58 :: 32 :: (v ++ (13 :: 10 :: encodeTrailerBlock t)))).isEmpty = false := by
        cases n <;> rfl
      rw [hshape]
      simp [decodeTrailerGo, hne,
        readUntil_eq 58 n (32 :: (v ++ (13 :: 10 :: encodeTrailerBlock t))) hn,
        readUntil_eq 13 v (10 :: encodeTrailerBlock t) hv,
        ih f hwf' hfuel']

theorem decodeBodyGo_all_messages (maxSize : Nat) :
    ∀ (ps : List (List Nat)) (fuel : Nat) (acc : List (List Nat)),
      (∀ p ∈ ps, p.length < 2 ^ 32 ∧ p.length ≤ maxSize) →
      ((ps.map encode_message).flatten).length < fuel →
      decodeBodyGo maxSize fuel ((ps.map encode_message).flatten) acc =
        Except.error GrpcWebError.missingTrailer := by
  intro ps
  induction ps with
  | nil =>
    intro fuel acc _ hfuel
    simp only [List.map_nil, List.flatten_nil] at hfuel ⊢
    cases fuel with
    | zero => exact absurd hfuel (by omega)
    | succ f => rfl
  | cons p ps ih =>
    intro fuel acc hps hfuel
    have hp := hps p (List.mem_cons_self _ _)
    have hlen5 : (encode_message p).length = p.length + 5 := encode_message_len p
    simp only [List.map_cons, List.flatten_cons] at hfuel ⊢
    cases fuel with
    | zero => exact absurd hfuel (Nat.not_lt_zero _)
    | succ f =>
      rw [List.length_append, hlen5] at hfuel
      simp only [decodeBodyGo,
        decode_encode_message maxSize p ((ps.map encode_message).flatten) hp.1 hp.2]
      exact ih f (p :: acc) (fun q hq => hps q (List.mem_cons_of_mem _ hq)) (by omega)

/-! ## Claim theorems -/

/-- C1: For every server-inbound gRPC-Web request (POST with a content-type
beginning `application/grpc-web`), the forwarded request has its content-type
rewritten from `application/grpc-web` plus codec suffix to `application/grpc`
plus the same suffix; if the content-type header is absent,
`request_from_web_to_grpc` inserts the default `application/grpc`. -/
theorem c1_content_type_rewrite {B : Type} (req : Request B) (suffix : String)
    (hs : suffix = "" ∨ suffix = "+proto" ∨ suffix = "+text") :
    (getFirst "content-type" req.headers = some (("application/grpc-web" ++ suffix).data) →
      ∃ r, request_from_web_to_grpc req = some r ∧
        getFirst "content-type" r.headers = some (("application/grpc" ++ suffix).data)) ∧
    (getFirst "content-type" req.headers = none →
      ∃ r, request_from_web_to_grpc req = some r ∧
        getFirst "content-type" r.headers = some ("application/grpc".data)) := by
  constructor
  · intro hct
    have hv : (("application/grpc-web" ++ suffix).data).all isVisibleAscii = true := by
      rcases hs with h | h | h <;> subst h <;> decide
    have hrw : ctWebToGrpc (("application/grpc-web" ++ suffix).data) =
        ("application/grpc" ++ suffix).data := by
      rcases hs with h | h | h <;> subst h <;> decide
    refine ⟨_, request_from_web_to_grpc_occupied req _ hct hv, ?_⟩
    show getFirst "content-type"
        (replaceKeyAll "content-type" (ctWebToGrpc (("application/grpc-web" ++ suffix).data))
          req.headers) = some (("application/grpc" ++ suffix).data)
    rw [hrw]
    exact getFirst_replaceKeyAll "content-type" _ req.headers _ hct
  · intro hct
    refine ⟨_, request_from_web_to_grpc_vacant req hct, ?_⟩
    exact getFirst_append_missing "content-type" _ req.headers hct

/-- C1 witness: the rewrite at a concrete gRPC-Web request with the `+proto`
suffix. -/
theorem c1_witness :
    ∃ r, request_from_web_to_grpc webProtoRequest = some r ∧
      getFirst "content-type" r.headers = some (("application/grpc" ++ "+proto").data) :=
  (c1_content_type_rewrite webProtoRequest "+proto" (Or.inr (Or.inl rfl))).1 (by decide)

/-- C2: Every request that is not classified as gRPC-Web is forwarded to the
inner handler unmodified (the `Grpc` passthrough variant), and the
passthrough future forwards the inner handler's poll result unmodified. -/
theorem c2_passthrough {S B B2 F E : Type} (s : Server S) (innerCall : S → Request B → F)
    (pollInner : F → Poll (Response B2) E) (req : Request B)
    (h : is_grpc_web_request req = false) :
    Server.call s innerCall req = some ⟨InnerServerFuture.Grpc (innerCall s.service req)⟩ ∧
    ∀ f : F, ServerFuture.poll ⟨InnerServerFuture.Grpc f⟩ pollInner = pollInner f := by
  constructor
  · simp [Server.call, h]
  · intro f
    rfl

/-- C2 witness: a `GET /health` request passes through untouched. -/
theorem c2_witness :
    Server.call (Server.new ()) (fun _ r => r) healthRequest =
      some ⟨InnerServerFuture.Grpc healthRequest⟩ :=
  (c2_passthrough (Server.new ()) (fun _ r => r)
    (fun _ => (Poll.notReady : Poll (Response Unit) Unit)) healthRequest (by decide)).1

/-- C3: the code violates this claim.  An `OPTIONS /pkg.Svc/Method` pre-flight
request (with `Origin` and `Access-Control-Request-Method` headers) is not
classified as gRPC-Web, so `Server.call` forwards it, unmodified, to the
inner handler as the plain `Grpc` passthrough variant — it never synthesizes
the CORS response itself, contradicting the crate's own documentation that
CORS requests "will be intercepted". -/
theorem c3_preflight_forwarded :
    Server.call (Server.new ()) (fun _ r => r) preflightRequest =
      some ⟨InnerServerFuture.Grpc preflightRequest⟩ := rfl

/-- C4: frame-codec round trip.  Decoding `encode_message P` yields the
Message frame with payload `P`; decoding `encode_trailer T` yields the
Trailer frame carrying the serialized block, and `decode_trailer` parses the
block back to exactly `T`'s entries, for any trailer set containing at least
`grpc-status` whose names contain no colon and whose values contain no CR. -/
theorem c4_frame_round_trip (maxSize : Nat) (P : List Nat) (T : List (List Nat × List Nat))
    (hP32 : P.length < 2 ^ 32) (hPmax : P.length ≤ maxSize)
    (hT32 : (encodeTrailerBlock T).length < 2 ^ 32)
    (hTmax : (encodeTrailerBlock T).length ≤ maxSize)
    (hwf : ∀ p ∈ T, ¬ (58 : Nat) ∈ p.1 ∧ ¬ (13 : Nat) ∈ p.2)
    (_hstatus : ∃ v, (strBytes "grpc-status", v) ∈ T) :
    decode_next_frame maxSize (encode_message P) = DecodeResult.frame (Frame.message P) [] ∧
    decode_next_frame maxSize (encode_trailer T) =
      DecodeResult.frame (Frame.trailer (encodeTrailerBlock T)) [] ∧
    decode_trailer (encodeTrailerBlock T) = some T := by
  refine ⟨?_, ?_, ?_⟩
  · have h := decode_encode_message maxSize P [] hP32 hPmax
    rwa [List.append_nil] at h
  · have h := decode_encode_trailer maxSize T [] hT32 hTmax
    rwa [List.append_nil] at h
  · exact decodeTrailerGo_block T _ hwf (Nat.le_refl _)

/-- C4 witness: round trip of a concrete message payload and a concrete
trailer set containing `grpc-status: 0`. -/
theorem c4_witness :
    decode_next_frame 1000 (encode_message [0, 1, 2]) =
      DecodeResult.frame (Frame.message [0, 1, 2]) [] ∧
    decode_next_frame 1000 (encode_trailer [(strBytes "grpc-status", strBytes "0")]) =
      DecodeResult.frame
        (Frame.trailer (encodeTrailerBlock [(strBytes "grpc-status", strBytes "0")])) [] ∧
    decode_trailer (encodeTrailerBlock [(strBytes "grpc-status", strBytes "0")]) =
      some [(strBytes "grpc-status", strBytes "0")] :=
  c4_frame_round_trip 1000 [0, 1, 2] [(strBytes "grpc-status", strBytes "0")]
    (by decide) (by decide) (by decide) (by decide) (by decide) ⟨strBytes "0", by decide⟩

/-- C5: if the client-side response byte stream ends without ever producing a
Trailer frame — here, a stream consisting only of encoded message frames —
the client adapter's result is `MissingTrailerError` (the call is failed with
status "unknown"), never a successful result. -/
theorem c5_missing_trailer (maxSize : Nat) (ps : List (List Nat))
    (h : ∀ p ∈ ps, p.length < 2 ^ 32 ∧ p.length ≤ maxSize) :
    response_from_web_to_grpc maxSize ((ps.map encode_message).flatten) =
      Except.error GrpcWebError.missingTrailer := by
  unfold response_from_web_to_grpc
  exact decodeBodyGo_all_messages maxSize ps _ [] h (Nat.lt_succ_self _)

/-- C5 witness: a stream of one message frame and no Trailer frame. -/
theorem c5_witness :
    response_from_web_to_grpc 9 (([[1, 2, 3]].map encode_message).flatten) =
      Except.error GrpcWebError.missingTrailer :=
  c5_missing_trailer 9 [[1, 2, 3]] (by decide)

/-- C6: for every supported codec suffix, rewriting a gRPC-Web content-type
to native form (`ctWebToGrpc`, the replace performed by
`request_from_web_to_grpc`) and then applying the inverse rewrite yields the
original content-type string. -/
theorem c6_ct_inverse (suffix : String)
    (hs : suffix = "" ∨ suffix = "+proto" ∨ suffix = "-text") :
    ctGrpcToWeb (ctWebToGrpc (("application/grpc-web" ++ suffix).data)) =
      ("application/grpc-web" ++ suffix).data := by
  rcases hs with h | h | h <;> subst h <;> decide

/-- C6 witness: the round trip at the `+proto` suffix. -/
theorem c6_witness :
    ctGrpcToWeb (ctWebToGrpc (("application/grpc-web" ++ "+proto").data)) =
      ("application/grpc-web" ++ "+proto").data :=
  c6_ct_inverse "+proto" (Or.inr (Or.inl rfl))

/-- C7: both adapters' `poll_ready` is exactly the inner service's
`poll_ready`; in particular each reports ready exactly when the inner
service does. -/
theorem c7_poll_ready_delegates {S E : Type} (pollInner : S → Poll Unit E)
    (s : Server S) (c : Client S) :
    Server.poll_ready s pollInner = pollInner s.service ∧
    Client.poll_ready c pollInner = pollInner c.service ∧
    (Server.poll_ready s pollInner = Poll.ready () ↔ pollInner s.service = Poll.ready ()) ∧
    (Client.poll_ready c pollInner = Poll.ready () ↔ pollInner c.service = Poll.ready ()) :=
  ⟨rfl, rfl, Iff.rfl, Iff.rfl⟩

/-- C8: a `Server` built with the default options has no
allowed-request-headers list, restriction of CORS to registered endpoints
enabled, and no origin filter. -/
theorem c8_default_options {S : Type} (svc : S) :
    (Server.new svc).options.allowed_request_headers = none ∧
    (Server.new svc).options.cors_for_registered_endpoints_only = true ∧
    (Server.new svc).options.origin_filter = none :=
  ⟨rfl, rfl, rfl⟩

/-- C9: for every gRPC-Web request, `request_from_web_to_grpc` changes only
the HTTP version (to HTTP/2) and the content-type header: method, URI, body,
and every header other than content-type are unchanged. -/
theorem c9_only_ct_and_version {B : Type} (req : Request B)
    (h : is_grpc_web_request req = true) :
    ∃ r, request_from_web_to_grpc req = some r ∧
      r.method = req.method ∧ r.uri = req.uri ∧ r.body = req.body ∧
      r.version = Version.HTTP2 ∧
      ∀ k : String, k ≠ "content-type" → getAll k r.headers = getAll k req.headers := by
  obtain ⟨-, v, hg, hall, -⟩ := is_grpc_web_request_true_elim req h
  exact ⟨_, request_from_web_to_grpc_occupied req v hg hall, rfl, rfl, rfl, rfl,
    fun k hk => getAll_replaceKeyAll "content-type" k (ctWebToGrpc v) hk req.headers⟩

/-- C9 witness: at a concrete gRPC-Web request carrying an extra
`x-grpc-web` header, the transformation sets the version and leaves the
`x-grpc-web` header untouched. -/
theorem c9_witness :
    ∃ r, request_from_web_to_grpc webProtoRequest = some r ∧
      r.version = Version.HTTP2 ∧
      getAll "x-grpc-web" r.headers = getAll "x-grpc-web" webProtoRequest.headers := by
  obtain ⟨r, h1, -, -, -, h5, h6⟩ := c9_only_ct_and_version webProtoRequest (by decide)
  exact ⟨r, h1, h5, h6 "x-grpc-web" (by decide)⟩

/-- C10: classification depends only on the method and the content-type
value, is a total boolean predicate, and is false — sending the request down
the untranslated passthrough path — for any non-POST request, any request
without a content-type header, and any request whose content-type value is
not ASCII-decodable. -/
theorem c10_classification {B : Type} (req : Request B) :
    (req.method ≠ Method.POST → is_grpc_web_request req = false) ∧
    (getFirst "content-type" req.headers = none → is_grpc_web_request req = false) ∧
    (∀ v, getFirst "content-type" req.headers = some v → toStr v = none →
      is_grpc_web_request req = false) ∧
    (∀ req2 : Request B, req.method = req2.method →
      getFirst "content-type" req.headers = getFirst "content-type" req2.headers →
      is_grpc_web_request req = is_grpc_web_request req2) ∧
    (∀ (S F : Type) (s : Server S) (innerCall : S → Request B → F),
      is_grpc_web_request req = false →
      Server.call s innerCall req = some ⟨InnerServerFuture.Grpc (innerCall s.service req)⟩) := by
  refine ⟨?_, ?_, ?_, ?_, ?_⟩
  · intro hm
    simp [is_grpc_web_request, decide_eq_false hm]
  · intro hct
    simp [is_grpc_web_request, hct]
  · intro v hct hts
    simp [is_grpc_web_request, hct, hts]
  · intro req2 hm hct
    unfold is_grpc_web_request
    rw [hm, hct]
  · intro S F s innerCall hfalse
    simp [Server.call, hfalse]

/-- C10 witness: a GET request carrying both a gRPC-Web content-type and the
`x-grpc-web` marker header is still not classified as gRPC-Web. -/
theorem c10_witness : is_grpc_web_request getWithWebHeaders = false :=
  (c10_classification getWithWebHeaders).1 (by decide)

end TowerGrpcWeb
